import Mathlib

/-!
# Currency converter: a shallow embedding and its checked properties

The repository holds two Go programs that share `convertCurrency` and
`getExchangeRate` verbatim:

* `cli/main.go`  – the flag-driven command (`--from`, `--to`, `--amount`, `--lang`);
* `main.go`      – the interactive prompt loop.

Effects are made explicit.  Every `http.Get` and every `fmt.Print*` call is
recorded as an `Event`, in program order.  Library calls whose bodies are not
part of the repository (`http.Get`, `io.ReadAll`, `json.Unmarshal`,
`time.LoadLocation`, `Time.Format`, the `%.2f` verb, the float conversion of
`fmt.Sscanf`, `unicode.ToUpper`/`unicode.ToLower`) are fields of an environment
`Env`; all general theorems quantify over every environment.  The scanning
done by `fmt.Scanln` and `fmt.Sscanf`, and the panic of `Time.In` on a nil
location, are modelled after package `fmt` and package `time`.  `float64` is a type
parameter `F` carrying only `0`, `*` and a decidable `≤`, with no laws
assumed, so the general theorems hold for IEEE arithmetic as well (NaN
included).  A concrete binary64 model `F64` is used for the closed examples.

Go strings are modelled by Lean strings (sequences of Unicode scalar values).
-/

namespace CurrencyConverter

/-! ## Constants (`main.go` 15-22, `cli/main.go` 15-22) -/

def ColorReset : String := "\x1b[0m"
def ColorGreen : String := "\x1b[32m"
def ColorYellow : String := "\x1b[33m"

def apiKey : String := "e6dd2bb259387cc30149060c"

/-! ## Data model -/

/-- The Go struct `ExchangeRateResponse`.  A Go map may be `nil`; that is
`none` here, and a non-nil map is an association list read by first match. -/
structure ExchangeRateResponse (F : Type) where
  BaseCode : String
  TimeLastUpdateUnix : Int
  TimeLastUpdateUTC : String
  ConversionRates : Option (List (String × F))
  deriving DecidableEq

/-- The composite literal `ExchangeRateResponse{}`. -/
def ExchangeRateResponse.zero (F : Type) : ExchangeRateResponse F :=
  { BaseCode := "", TimeLastUpdateUnix := 0, TimeLastUpdateUTC := "", ConversionRates := none }

/-- The two-result map index `m[k]`: on a nil map or a missing key it gives
`none` (Go: zero value and `false`); it never panics. -/
def mapIndex {F : Type} (m : Option (List (String × F))) (k : String) : Option F :=
  match m with
  | none => none
  | some kvs => kvs.lookup k

/-- The error values built by the four `fmt.Errorf` call sites of
`getExchangeRate`, named after the taxonomy of the specification. -/
inductive FetchError where
  | NetworkError (cause : String)
  | ReadError (cause : String)
  | ParseError (cause : String)
  | RateNotFoundError (to_ : String)
  deriving DecidableEq

/-- The method `Error()` of those values: the formatted message. -/
def FetchError.Error : FetchError → String
  | .NetworkError cause => "could not fetch exchange rate: " ++ cause
  | .ReadError cause => "could not read response body: " ++ cause
  | .ParseError cause => "could not unmarshal JSON: " ++ cause
  | .RateNotFoundError to_ => "rate not found for " ++ to_

/-- What `http.Get(url)` followed by `io.ReadAll(resp.Body)` can produce. -/
inductive HttpOutcome where
  | sendFailed (err : String)
  | readFailed (err : String)
  | body (bytes : String)
  deriving DecidableEq

/-- Observable effects, in program order. -/
inductive Event where
  | httpGet (url : String)
  | stdout (text : String)
  | panic (msg : String)
  deriving DecidableEq

/-- The library behaviour the programs depend on. -/
structure Env (F L : Type) where
  /-- `unicode.ToUpper`, used by `strings.ToUpper` on non-ASCII input. -/
  unicodeToUpper : Char → Char
  /-- `unicode.ToLower`, used by `strings.ToLower` on non-ASCII input. -/
  unicodeToLower : Char → Char
  /-- `http.Get` then `io.ReadAll`. -/
  httpGet : String → HttpOutcome
  /-- `json.Unmarshal(body, &result)` on a zero `result`. -/
  unmarshal : String → Except String (ExchangeRateResponse F)
  /-- `time.LoadLocation`; `none` is the result `(nil, err)`. -/
  loadLocation : String → Option L
  /-- `time.Unix(sec, 0).In(loc).Format("Mon, 02 Jan 2006 15:04:05")` for a non-nil `loc`. -/
  formatTime : L → Int → String
  /-- The verb `%.2f`. -/
  fmt2f : F → String
  /-- `(*ss).convertFloat` of package `fmt` (it wraps `strconv.ParseFloat`);
  `none` is a scan error. -/
  convertFloat : String → Option F

/-! ## `strings.ToUpper` and `strings.ToLower` -/

def asciiUpper (c : Char) : Char :=
  if 97 ≤ c.toNat ∧ c.toNat ≤ 122 then Char.ofNat (c.toNat - 32) else c

def asciiLower (c : Char) : Char :=
  if 65 ≤ c.toNat ∧ c.toNat ≤ 90 then Char.ofNat (c.toNat + 32) else c

/-- The function `strings.ToUpper`: a byte-wise ASCII path when every byte is
below `utf8.RuneSelf`, otherwise `strings.Map(unicode.ToUpper, s)`. -/
def ToUpper {F L : Type} (env : Env F L) (s : String) : String :=
  if s.data.all (fun c => decide (c.toNat < 128)) then String.mk (s.data.map asciiUpper)
  else String.mk (s.data.map env.unicodeToUpper)

/-- The function `strings.ToLower`, same structure. -/
def ToLower {F L : Type} (env : Env F L) (s : String) : String :=
  if s.data.all (fun c => decide (c.toNat < 128)) then String.mk (s.data.map asciiLower)
  else String.mk (s.data.map env.unicodeToLower)

/-! ## Rate fetcher and converter (identical in both files) -/

/-- The request URL: `fmt.Sprintf("https://v6.exchangerate-api.com/v6/%s/latest/%s", apiKey, from)`. -/
def requestURL (from_ : String) : String :=
  "https://v6.exchangerate-api.com/v6/" ++ apiKey ++ "/latest/" ++ from_

/-- The function `getExchangeRate` (`main.go` 137-163, `cli/main.go` 74-100).
Returns the Go result triple and the effects performed. -/
def getExchangeRate {F L : Type} [Zero F] (env : Env F L) (from_ to_ : String) :
    (F × ExchangeRateResponse F × Option FetchError) × List Event :=
  let url := requestURL from_
  match env.httpGet url with
  | .sendFailed err => ((0, ExchangeRateResponse.zero F, some (.NetworkError err)), [.httpGet url])
  | .readFailed err => ((0, ExchangeRateResponse.zero F, some (.ReadError err)), [.httpGet url])
  | .body bytes =>
    match env.unmarshal bytes with
    | .error err => ((0, ExchangeRateResponse.zero F, some (.ParseError err)), [.httpGet url])
    | .ok result =>
      match mapIndex result.ConversionRates to_ with
      | none => ((0, result, some (.RateNotFoundError to_)), [.httpGet url])
      | some rate => ((rate, result, none), [.httpGet url])

/-- The function `convertCurrency` (`main.go` 61-69, `cli/main.go` 31-39). -/
def convertCurrency {F L : Type} [Zero F] [Mul F] (env : Env F L) (from_ to_ : String) (amount : F) :
    (F × ExchangeRateResponse F × Option FetchError) × List Event :=
  let from_ := ToUpper env from_
  let to_ := ToUpper env to_
  match getExchangeRate env from_ to_ with
  | ((rate, response, err), trace) =>
    match err with
    | some e => ((0, response, some e), trace)
    | none => ((amount * rate, response, none), trace)

/-! ## Presenter and entry point of the flag-driven command (`cli/main.go`) -/

def separator : String := "---------------------------------------------------------\n"

/-- The conversion line of `cli/main.go` (lines 109, 115, 121; the same format
string in the three branches). -/
def cliResultLine {F L : Type} (env : Env F L) (amount : F) (from_ to_ : String) (result : F) : String :=
  ColorGreen ++ env.fmt2f amount ++ ColorReset ++ " " ++ ColorYellow ++ from_ ++ ColorReset ++ " -> "
    ++ ColorGreen ++ env.fmt2f result ++ ColorReset ++ " " ++ ColorYellow ++ to_ ++ ColorReset ++ "\n"

/-- The function `printResult` (`cli/main.go` 102-126).  The error of
`time.LoadLocation` is discarded; when it is non-nil the location is the nil
pointer and `Time.In` panics ("In panics if loc is nil"), before anything is
printed. -/
def printResult {F L : Type} (env : Env F L) (lang : String) (response : ExchangeRateResponse F)
    (amount : F) (from_ to_ : String) (result : F) : List Event :=
  match env.loadLocation "Asia/Tashkent" with
  | none => [.panic "time: missing Location in call to Time.In"]
  | some tashkentLocation =>
    let lastUpdateTashkent := env.formatTime tashkentLocation response.TimeLastUpdateUnix
    if lang = "uz" then
      [.stdout separator,
       .stdout (cliResultLine env amount from_ to_ result),
       .stdout ("Asosiy valyuta: " ++ ColorYellow ++ response.BaseCode ++ ColorReset ++ "\n"),
       .stdout ("So'nggi yangilanish (Toshkent vaqti): " ++ lastUpdateTashkent ++ "\n"),
       .stdout separator]
    else if lang = "ru" then
      [.stdout separator,
       .stdout (cliResultLine env amount from_ to_ result),
       .stdout ("Основная валюта: " ++ ColorYellow ++ response.BaseCode ++ ColorReset ++ "\n"),
       .stdout ("Последнее обновление (Ташкентское время): " ++ lastUpdateTashkent ++ "\n"),
       .stdout separator]
    else
      [.stdout separator,
       .stdout (cliResultLine env amount from_ to_ result),
       .stdout ("Base Currency: " ++ ColorYellow ++ response.BaseCode ++ ColorReset ++ "\n"),
       .stdout ("Last Update (Tashkent Time): " ++ lastUpdateTashkent ++ "\n"),
       .stdout separator]

/-- The function `printError` (`cli/main.go` 128-137); `fmt.Println` puts a
space between its operands and a newline at the end. -/
def printError (lang : String) (message : String) : List Event :=
  if lang = "uz" then [.stdout ("Xato:" ++ " " ++ message ++ "\n")]
  else if lang = "ru" then [.stdout ("Ошибка:" ++ " " ++ message ++ "\n")]
  else [.stdout ("Error:" ++ " " ++ message ++ "\n")]

def invalidInputMessage : String :=
  "Invalid input. Ensure 'from', 'to' currencies and a positive 'amount' are provided."

/-- The closure `rootCmd.Run` of `cli/main.go` (lines 48-61), on the values
the flags were parsed into. -/
def cliRun {F L : Type} [Zero F] [Mul F] [LE F] [∀ a b : F, Decidable (a ≤ b)]
    (env : Env F L) (lang from_ to_ : String) (amount : F) : List Event :=
  if from_ = "" ∨ to_ = "" ∨ amount ≤ 0 then
    printError lang invalidInputMessage
  else
    match convertCurrency env from_ to_ amount with
    | ((result, response, err), trace) =>
      match err with
      | some e => trace ++ printError lang ("Error: " ++ e.Error)
      | none => trace ++ printResult env lang response amount from_ to_ result

/-! ## Standard input: `fmt.Scanln` and `fmt.Sscanf` (package `fmt`, `scan.go`) -/

/-- The table `space` and the function `isSpace` of `fmt/scan.go`. -/
def isSpace (c : Char) : Bool :=
  let r := c.toNat
  (0x09 ≤ r && r ≤ 0x0d) || r == 0x20 || r == 0x85 || r == 0xa0 || r == 0x1680
    || (0x2000 ≤ r && r ≤ 0x200a) || r == 0x2028 || r == 0x2029 || r == 0x202f
    || r == 0x205f || r == 0x3000

/-- The method `(*ss).SkipSpace` with `nlIsSpace = false`, as in `Scanln` and
`Sscanf`.  The flag is `false` when it raised "unexpected newline"; the
newline is consumed. -/
def SkipSpace : List Char → Bool × List Char
  | [] => (true, [])
  | c :: cs =>
    if c = '\r' ∧ cs.head? = some '\n' then SkipSpace cs
    else if c = '\n' then (false, cs)
    else if isSpace c then SkipSpace cs
    else (true, c :: cs)

/-- The closing loop of `(*ss).doScan` under `nlIsEnd`: the rest of the line
must be blank.  A non-space rune raises "expected newline" and has been read. -/
def finishLine : List Char → List Char
  | [] => []
  | c :: cs => if c = '\n' then cs else if isSpace c then finishLine cs else cs

/-- The call `fmt.Scanln(&v)` for a string `v`, its error discarded as in the
program.  The first component is the value stored into `v`, or `none` when
the scan failed before the assignment (blank line or end of input) and `v`
keeps its old value; the second is the input left. -/
def Scanln (input : List Char) : Option String × List Char :=
  match SkipSpace input with
  | (false, rest) => (none, rest)
  | (true, []) => (none, [])
  | (true, c :: cs) =>
    let word := (c :: cs).takeWhile (fun r => !isSpace r)
    (some (String.mk word), finishLine ((c :: cs).dropWhile (fun r => !isSpace r)))

/-- Scanner state of `floatToken`: the token buffer `s.buf` and the unread input. -/
abbrev Scan := List Char × List Char

/-- The method `(*ss).accept`: read one rune if it is in `ok` and append it to
the buffer; the flag tells whether it was. -/
def accept (ok : String) (st : Scan) : Bool × Scan :=
  match st.2 with
  | [] => (false, st)
  | c :: cs => if ok.data.contains c then (true, (st.1 ++ [c], cs)) else (false, st)

/-- The loop `for s.accept(ok) {}`. -/
def acceptAll (ok : String) (st : Scan) : Scan :=
  (st.1 ++ st.2.takeWhile (fun c => ok.data.contains c), st.2.dropWhile (fun c => ok.data.contains c))

def sign : String := "+-"
def period : String := "."
def exponent : String := "eEpP"
def decimalDigits : String := "0123456789"
def hexadecimalDigits : String := "0123456789aAbBcCdDeEfF"

/-- The part of `floatToken` after the NaN and Inf tests: prefix, digits,
fraction, exponent. -/
def floatTokenNumber (st : Scan) : List Char :=
  let z := accept "0" st
  let x := if z.1 then accept "xX" z.2 else (false, z.2)
  let digits := if z.1 && x.1 then hexadecimalDigits ++ "_" else decimalDigits ++ "_"
  let exp := if z.1 && x.1 then "pP" else exponent
  let st := acceptAll digits x.2
  let dot := accept period st
  let st := if dot.1 then acceptAll digits dot.2 else dot.2
  let e := accept exp st
  let st := if e.1 then acceptAll (decimalDigits ++ "_") (accept sign e.2).2 else e.2
  st.1

/-- The method `(*ss).floatToken`: the longest prefix that looks like a
floating-point number; scanning stops at the first rune that does not fit
and leaves the rest of the input unread. -/
def floatToken (input : List Char) : List Char :=
  let n1 := accept "nN" ([], input)
  let n2 := if n1.1 then accept "aA" n1.2 else (false, n1.2)
  let n3 := if n1.1 && n2.1 then accept "nN" n2.2 else (false, n2.2)
  if n1.1 && n2.1 && n3.1 then n3.2.1
  else
    let st := (accept sign n3.2).2
    let i1 := accept "iI" st
    let i2 := if i1.1 then accept "nN" i1.2 else (false, i1.2)
    let i3 := if i1.1 && i2.1 then accept "fF" i2.2 else (false, i2.2)
    if i1.1 && i2.1 && i3.1 then i3.2.1
    else floatTokenNumber i3.2

/-- The call `fmt.Sscanf(input, "%f", &amount)`: `none` is `err != nil`.
Input left after the token is not an error. -/
def Sscanf {F L : Type} (env : Env F L) (input : String) : Option F :=
  match SkipSpace input.data with
  | (false, _) => none
  | (true, []) => none
  | (true, c :: cs) => env.convertFloat (String.mk (floatToken (c :: cs)))

/-! ## The interactive program (`main.go`) -/

/-- The package variable `translations` (`main.go` 31-59). -/
def translations : List (String × List (String × String)) :=
  [("en",
    [("enter_amount", "Enter amount (or 'exit' to quit): "),
     ("invalid_amount", "Invalid amount. Please enter a positive number."),
     ("enter_from", "Enter currency to convert from (e.g., USD): "),
     ("enter_to", "Enter currency to convert to (e.g., EUR): "),
     ("missing_currencies", "Both 'from' and 'to' currencies must be specified."),
     ("base_currency", "Base Currency: "),
     ("last_update", "Last Update (Tashkent Time): ")]),
   ("ru",
    [("enter_amount", "Введите сумму (или 'exit' для выхода): "),
     ("invalid_amount", "Недопустимая сумма. Пожалуйста, введите положительное число."),
     ("enter_from", "Введите валюту для конвертации (например, USD): "),
     ("enter_to", "Введите валюту для конвертации в (например, EUR): "),
     ("missing_currencies", "Необходимо указать валюты 'from' и 'to'."),
     ("base_currency", "Базовая валюта: "),
     ("last_update", "Последнее обновление (Ташкентское время): ")]),
   ("uz",
    [("enter_amount", "Summani kiriting (yoki chiqish uchun 'exit' kiriting): "),
     ("invalid_amount", "Noto'g'ri summa. Iltimos, musbat son kiriting."),
     ("enter_from", "O'zgarish uchun valyutani kiriting (masalan, USD): "),
     ("enter_to", "O'zgarish uchun valyutani kiriting (masalan, EUR): "),
     ("missing_currencies", "'from' va 'to' valyutalari ko'rsatilishi kerak."),
     ("base_currency", "Asosiy valyuta: "),
     ("last_update", "Oxirgi yangilanish (Toshkent vaqti): ")])]

/-- The nested index `translations[lang][key]`; a missing key at either level
gives the zero value, the empty string. -/
def tr (lang key : String) : String :=
  ((translations.lookup lang).bind (fun m => m.lookup key)).getD ""

/-- The keys the program looks up. -/
def usedKeys : List String :=
  ["enter_amount", "invalid_amount", "enter_from", "enter_to", "missing_currencies",
   "base_currency", "last_update"]

/-- Process state of the interactive program: unread standard input and the
package variables `from`, `to`, `lang` (`main.go` 21). -/
structure State where
  stdin : List Char
  from_ : String
  to_ : String
  lang : String
  deriving DecidableEq

/-- State at program start: the package variables hold the empty string. -/
def State.init (stdin : String) : State :=
  { stdin := stdin.data, from_ := "", to_ := "", lang := "" }

/-- Language selection (`main.go` 72-78). -/
def chooseLanguage (st : State) : State × List Event :=
  let r := Scanln st.stdin
  let lang := r.1.getD st.lang
  if lang ≠ "en" ∧ lang ≠ "ru" ∧ lang ≠ "uz" then
    ({ st with stdin := r.2, lang := "en" },
     [.stdout "Choose language (en, ru, uz):\n",
      .stdout "Unsupported language, defaulting to English (en).\n"])
  else
    ({ st with stdin := r.2, lang := lang }, [.stdout "Choose language (en, ru, uz):\n"])

/-- How one pass through the body of the `for` loop ends: `continue` (or
falling off the end), `break`, or a panic. -/
inductive Control where
  | next
  | stop
  | crashed
  deriving DecidableEq

/-- The conversion line of `main.go` (line 124). -/
def interactiveResultLine {F L : Type} (env : Env F L) (amount : F) (from_ to_ : String) (result : F) :
    String :=
  ColorGreen ++ env.fmt2f amount ++ ColorReset ++ " " ++ ColorYellow ++ from_ ++ ColorReset ++ " is "
    ++ ColorGreen ++ env.fmt2f result ++ ColorReset ++ " " ++ ColorYellow ++ to_ ++ ColorReset ++ "\n"

/-- The result block of `main.go` (lines 120-127), with the same discarded
`time.LoadLocation` error as `printResult`. -/
def interactivePrint {F L : Type} (env : Env F L) (lang : String) (response : ExchangeRateResponse F)
    (amount : F) (from_ to_ : String) (result : F) : List Event × Control :=
  match env.loadLocation "Asia/Tashkent" with
  | none => ([.panic "time: missing Location in call to Time.In"], .crashed)
  | some tashkentLocation =>
    let lastUpdateTashkent := env.formatTime tashkentLocation response.TimeLastUpdateUnix
    ([.stdout separator,
      .stdout (interactiveResultLine env amount from_ to_ result),
      .stdout (tr lang "base_currency" ++ ColorYellow ++ response.BaseCode ++ ColorReset ++ "\n"),
      .stdout (tr lang "last_update" ++ lastUpdateTashkent ++ "\n"),
      .stdout separator], .next)

/-- Lines 101-127 of `main.go`: the rest of the loop body once `amount` has
been accepted.  `st` is the state after the amount line was read. -/
def askCurrencies {F L : Type} [Zero F] [Mul F] (env : Env F L) (st : State) (amount : F) :
    State × List Event × Control :=
  let r1 := Scanln st.stdin
  let from_ := ToUpper env (r1.1.getD st.from_)
  let r2 := Scanln r1.2
  let to_ := ToUpper env (r2.1.getD st.to_)
  let st := { st with stdin := r2.2, from_ := from_, to_ := to_ }
  let prompts := [Event.stdout (tr st.lang "enter_from"), Event.stdout (tr st.lang "enter_to")]
  if from_ = "" ∨ to_ = "" then
    (st, prompts ++ [.stdout (tr st.lang "missing_currencies" ++ "\n")], .next)
  else
    match convertCurrency env from_ to_ amount with
    | ((result, response, err), trace) =>
      match err with
      | some e => (st, prompts ++ trace ++ [.stdout ("Error:" ++ " " ++ e.Error ++ "\n")], .next)
      | none =>
        let out := interactivePrint env st.lang response amount from_ to_ result
        (st, prompts ++ trace ++ out.1, out.2)

/-- One pass through the loop body (`main.go` 84-128). -/
def iteration {F L : Type} [Zero F] [Mul F] [LE F] [∀ a b : F, Decidable (a ≤ b)]
    (env : Env F L) (st : State) : State × List Event × Control :=
  let prompt := Event.stdout (tr st.lang "enter_amount")
  let r := Scanln st.stdin
  let inputAmount := r.1.getD ""
  let st := { st with stdin := r.2 }
  if ToLower env inputAmount = "exit" then (st, [prompt], .stop)
  else
    match Sscanf env inputAmount with
    | none => (st, [prompt, .stdout (tr st.lang "invalid_amount" ++ "\n")], .next)
    | some amount =>
      if amount ≤ 0 then (st, [prompt, .stdout (tr st.lang "invalid_amount" ++ "\n")], .next)
      else
        let rest := askCurrencies env st amount
        (rest.1, prompt :: rest.2.1, rest.2.2)

/-- The `for` loop, run for at most `fuel` passes.  The trace is returned
when the loop ends, by `break` or by a panic; `none` means the fuel ran out
first. -/
def loop {F L : Type} [Zero F] [Mul F] [LE F] [∀ a b : F, Decidable (a ≤ b)]
    (env : Env F L) : Nat → State → Option (List Event)
  | 0, _ => none
  | fuel + 1, st =>
    match iteration env st with
    | (st', events, .next) => (loop env fuel st').map (fun rest => events ++ rest)
    | (_, events, _) => some events

/-- The function `main` of `main.go` on the given standard input. -/
def interactiveMain {F L : Type} [Zero F] [Mul F] [LE F] [∀ a b : F, Decidable (a ≤ b)]
    (env : Env F L) (fuel : Nat) (stdin : String) : Option (List Event) :=
  let s := chooseLanguage (State.init stdin)
  (loop env fuel s.1).map (fun rest => s.2 ++ rest)

/-! ## A model of `float64` for closed examples

IEEE-754 binary64: NaN, the two infinities, and finite values
`(-1)^neg * m * 2^e` in the canonical form of the format
(`m < 2^53`, `-1074 ≤ e ≤ 971`, and `2^52 ≤ m` unless `e = -1074`). -/

inductive F64 where
  | nan
  | inf (neg : Bool)
  | fin (neg : Bool) (m : Nat) (e : Int)
  deriving DecidableEq

namespace F64

def bitLenAux : Nat → Nat → Nat
  | 0, _ => 0
  | fuel + 1, n => if n = 0 then 0 else bitLenAux fuel (n / 2) + 1

/-- Number of binary digits of `n`. -/
def bitLen (n : Nat) : Nat := bitLenAux n n

/-- Whether `2^e ≤ n / d`. -/
def pow2Le (e : Int) (n d : Nat) : Bool :=
  if 0 ≤ e then decide (d * 2 ^ e.toNat ≤ n) else decide (d ≤ n * 2 ^ (-e).toNat)

/-- The binary64 value nearest to `(-1)^neg * n / d` (`d > 0`), ties to even,
overflow to infinity, gradual underflow. -/
def round (neg : Bool) (n d : Nat) : F64 :=
  if n = 0 then .fin neg 0 (-1074)
  else
    let k : Int := (bitLen n : Int) - (bitLen d : Int)
    let e0 : Int := if pow2Le k n d then k else k - 1
    let q : Int := max (e0 - 52) (-1074)
    let num := if q < 0 then n * 2 ^ (-q).toNat else n
    let den := if q < 0 then d else d * 2 ^ q.toNat
    let m := num / den
    let r := num % den
    let up := if 2 * r < den then m else if den < 2 * r then m + 1 else if m % 2 = 0 then m else m + 1
    let q1 : Int := if up = 2 ^ 53 then q + 1 else q
    let m1 : Nat := if up = 2 ^ 53 then 2 ^ 52 else up
    if 971 < q1 then .inf neg else .fin neg m1 q1

/-- Multiplication, correctly rounded. -/
def mul : F64 → F64 → F64
  | .nan, _ => .nan
  | _, .nan => .nan
  | .inf s, .inf t => .inf (s != t)
  | .inf s, .fin t m _ => if m = 0 then .nan else .inf (s != t)
  | .fin s m _, .inf t => if m = 0 then .nan else .inf (s != t)
  | .fin s m1 e1, .fin t m2 e2 =>
    let e := e1 + e2
    if 0 ≤ e then round (s != t) (m1 * m2 * 2 ^ e.toNat) 1
    else round (s != t) (m1 * m2) (2 ^ (-e).toNat)

/-- Whether `m1 * 2^e1 ≤ m2 * 2^e2`, by position of the leading bit first. -/
def magLe (m1 : Nat) (e1 : Int) (m2 : Nat) (e2 : Int) : Bool :=
  if m1 = 0 then true
  else if m2 = 0 then false
  else if (bitLen m1 : Int) + e1 < (bitLen m2 : Int) + e2 then true
  else if (bitLen m2 : Int) + e2 < (bitLen m1 : Int) + e1 then false
  else decide (m1 * 2 ^ (e1 - min e1 e2).toNat ≤ m2 * 2 ^ (e2 - min e1 e2).toNat)

/-- The comparison `a <= b`; false when either side is NaN, and `-0 <= +0`
both ways. -/
def le : F64 → F64 → Bool
  | .nan, _ => false
  | _, .nan => false
  | .inf s, .inf t => s || !t
  | .inf s, .fin _ _ _ => s
  | .fin _ _ _, .inf t => !t
  | .fin false m1 e1, .fin false m2 e2 => magLe m1 e1 m2 e2
  | .fin true m1 e1, .fin true m2 e2 => magLe m2 e2 m1 e1
  | .fin true _ _, .fin false _ _ => true
  | .fin false m1 _, .fin true m2 _ => decide (m1 = 0 ∧ m2 = 0)

instance : Zero F64 := ⟨.fin false 0 (-1074)⟩
instance : Mul F64 := ⟨mul⟩
instance : LE F64 := ⟨fun a b => le a b = true⟩
instance (a b : F64) : Decidable (a ≤ b) := inferInstanceAs (Decidable (le a b = true))

/-- The value of a decimal literal `n / d`, e.g. `0.92` is `ofRatio 92 100`. -/
def ofRatio (n d : Nat) : F64 := round false n d

/-- Two decimal digits of `n < 100`. -/
def twoDigits (n : Nat) : String :=
  String.mk [Char.ofNat (48 + n / 10), Char.ofNat (48 + n % 10)]

/-- The verb `%.2f`: the exact value rounded to hundredths, ties to even. -/
def fmt2f : F64 → String
  | .nan => "NaN"
  | .inf false => "+Inf"
  | .inf true => "-Inf"
  | .fin neg m e =>
    let num := if e < 0 then m * 100 else m * 100 * 2 ^ e.toNat
    let den := if e < 0 then 2 ^ (-e).toNat else 1
    let h := num / den
    let r := num % den
    let h := if 2 * r < den then h else if den < 2 * r then h + 1 else if h % 2 = 0 then h else h + 1
    (if neg then "-" else "") ++ toString (h / 100) ++ "." ++ twoDigits (h % 100)

end F64

/-! ## A concrete environment for closed examples

Stand-ins for the library calls.  Each agrees with the Go library at the
inputs the closed examples below feed it; the general theorems do not use
them. -/

def isDigit (c : Char) : Bool := 48 ≤ c.toNat && c.toNat ≤ 57

def digitsValue (cs : List Char) : Nat := cs.foldl (fun acc c => 10 * acc + (c.toNat - 48)) 0

/-- A decimal value that overflows binary64 is a range error. -/
def finiteOrError (neg : Bool) (n d : Nat) : Option F64 :=
  match F64.round neg n d with
  | .inf _ => none
  | v => some v

/-- Stand-in for `convertFloat`: decimal tokens `[+-]digits[.digits][e[+-]digits]`
get their correctly rounded value, `nan`, `inf` and `infinity` their special
value, as `strconv.ParseFloat` gives.  Hexadecimal and underscored forms are
outside this stand-in and are reported as errors. -/
def parseDecimal (token : String) : Option F64 :=
  let cs := token.data
  let neg := decide (cs.head? = some '-')
  let body := if cs.head? = some '-' ∨ cs.head? = some '+' then cs.tail else cs
  if cs.map asciiLower = "nan".data then some .nan
  else if body.map asciiLower = "inf".data ∨ body.map asciiLower = "infinity".data then some (.inf neg)
  else
    let ip := body.takeWhile isDigit
    let r1 := body.dropWhile isDigit
    let r2 := if r1.head? = some '.' then r1.tail else r1
    let fp := r2.takeWhile isDigit
    let n := digitsValue (ip ++ fp)
    if ip ++ fp = [] then none
    else
      match r2.dropWhile isDigit with
      | [] => finiteOrError neg n (10 ^ fp.length)
      | c :: ex =>
        let ed := if ex.head? = some '-' ∨ ex.head? = some '+' then ex.tail else ex
        if (c = 'e' ∨ c = 'E') ∧ ed ≠ [] ∧ ed.all isDigit = true then
          if ex.head? = some '-' then finiteOrError neg n (10 ^ fp.length * 10 ^ digitsValue ed)
          else finiteOrError neg (n * 10 ^ digitsValue ed) (10 ^ fp.length)
        else none

/-- A response body of the rate service for base `USD`. -/
def usdBody : String :=
  "\x7b\"base_code\":\"USD\",\"time_last_update_unix\":1704067201," ++
  "\"time_last_update_utc\":\"Mon, 01 Jan 2024 00:00:01 +0000\"," ++
  "\"conversion_rates\":\x7b\"EUR\":0.92\x7d\x7d"

/-- What `json.Unmarshal` stores for `usdBody`: the rate is the binary64
value of the literal `0.92`. -/
def usdSnapshot : ExchangeRateResponse F64 :=
  { BaseCode := "USD"
    TimeLastUpdateUnix := 1704067201
    TimeLastUpdateUTC := "Mon, 01 Jan 2024 00:00:01 +0000"
    ConversionRates := some [("EUR", F64.ofRatio 92 100)] }

/-- An environment in which the service answers requests for base `USD` with
`usdBody` and every other request fails to connect; locations are their
names and the time-zone database knows `Asia/Tashkent` (UTC+5).  The rune
maps are the ASCII ones: the examples use ASCII input only. -/
def demoEnv : Env F64 String :=
  { unicodeToUpper := asciiUpper
    unicodeToLower := asciiLower
    httpGet := fun url =>
      if url = requestURL "USD" then .body usdBody
      else .sendFailed ("Get \"" ++ url ++ "\": dial tcp: connection refused")
    unmarshal := fun bytes =>
      if bytes = usdBody then .ok usdSnapshot
      else .error "invalid character 'x' looking for beginning of value"
    loadLocation := fun name => if name = "Asia/Tashkent" then some name else none
    formatTime := fun loc sec =>
      if loc = "Asia/Tashkent" ∧ sec = 1704067201 then "Mon, 01 Jan 2024 05:00:01" else ""
    fmt2f := F64.fmt2f
    convertFloat := parseDecimal }

/-- The same environment on a host without a time-zone database:
`time.LoadLocation` fails for every zone it has to look up. -/
def noZoneinfoEnv : Env F64 String :=
  { demoEnv with loadLocation := fun _ => none }

/-- The service answers with the empty JSON object, which `json.Unmarshal`
accepts: every field keeps its zero value and the rate map stays nil. -/
def emptyObjectEnv : Env F64 String :=
  { demoEnv with
    httpGet := fun _ => .body "\x7b\x7d"
    unmarshal := fun _ => .ok (ExchangeRateResponse.zero F64) }

/-- The member names of the expected reply shape
`base_code, time_last_update_unix, time_last_update_utc, conversion_rates`
(section 6 of the specification; the JSON tags of `ExchangeRateResponse`). -/
def expectedMembers : List String :=
  ["base_code", "time_last_update_unix", "time_last_update_utc", "conversion_rates"]

/-- Whether the text `name` occurs somewhere in `body`. -/
def mentions (body name : String) : Bool :=
  body.data.tails.any (fun rest => name.data.isPrefixOf rest)

/-- Whether `k` is a key of the Go map `m`; a nil map has no keys. -/
def isKey {F : Type} (m : Option (List (String × F))) (k : String) : Prop :=
  ∃ kvs v, m = some kvs ∧ (k, v) ∈ kvs

def isGet : Event → Bool
  | .httpGet _ => true
  | _ => false

/-- Number of HTTP requests in a trace. -/
def countGets (trace : List Event) : Nat := (trace.filter isGet).length

/-- What `rootCmd.Run` of `cli/main.go` prints after the call of `convertCurrency`. -/
def cliOutput {F L : Type} (env : Env F L) (lang from_ to_ : String) (amount : F)
    (r : F × ExchangeRateResponse F × Option FetchError) : List Event :=
  match r.2.2 with
  | some e => printError lang ("Error: " ++ e.Error)
  | none => printResult env lang r.2.1 amount from_ to_ r.1

set_option maxRecDepth 10000

/-! ## Checks of the library models on known values -/

/-- `fmt.Scanln` on one-word lines, a blank line, padded input with `\r\n`,
and a line with two words (the first rune of the second word is read). -/
theorem Scanln_known_values :
    Scanln "usd\neur\n".data = (some "usd", "eur\n".data)
    ∧ Scanln "\neur\n".data = (none, "eur\n".data)
    ∧ Scanln "".data = (none, [])
    ∧ Scanln "  usd  \r\neur\n".data = (some "usd", "eur\n".data)
    ∧ Scanln "usd eur\nx".data = (some "usd", "ur\nx".data) := by
  refine ⟨?_, ?_, ?_, ?_, ?_⟩ <;> decide

/-- `floatToken` on decimal, hexadecimal and special forms. -/
theorem floatToken_known_values :
    floatToken "12abc".data = "12".data
    ∧ floatToken "abc".data = "".data
    ∧ floatToken "-1.5e+3x".data = "-1.5e+3".data
    ∧ floatToken "0x1fp-2 ".data = "0x1fp-2".data
    ∧ floatToken "infinity".data = "inf".data
    ∧ floatToken "nope".data = "n".data
    ∧ floatToken "NaN1".data = "NaN".data := by
  refine ⟨?_, ?_, ?_, ?_, ?_, ?_, ?_⟩ <;> decide

/-- The binary64 model on textbook values: the literal `0.92`, the inexact
product `0.1 * 3` (one unit above the literal `0.3`), ties in `%.2f`, and
comparisons with NaN. -/
theorem F64_known_values :
    F64.ofRatio 92 100 = .fin false 8286623314361713 (-53)
    ∧ F64.ofRatio 100 1 * F64.ofRatio 92 100 = F64.ofRatio 92 1
    ∧ F64.ofRatio 1 10 * F64.ofRatio 3 1 = .fin false 5404319552844596 (-54)
    ∧ F64.ofRatio 3 10 = .fin false 5404319552844595 (-54)
    ∧ F64.fmt2f (F64.ofRatio 92 1) = "92.00"
    ∧ F64.fmt2f (F64.ofRatio 1 8) = "0.12"
    ∧ F64.fmt2f (F64.ofRatio 3 8) = "0.38"
    ∧ F64.fmt2f (F64.ofRatio 1 10 * F64.ofRatio 3 1) = "0.30"
    ∧ ¬ (F64.nan ≤ (0 : F64))
    ∧ F64.round true 5 1 ≤ (0 : F64)
    ∧ ¬ (F64.ofRatio 12 1 ≤ (0 : F64)) := by
  refine ⟨?_, ?_, ?_, ?_, ?_, ?_, ?_, ?_, ?_, ?_, ?_⟩ <;> decide

/-- The stand-in for `convertFloat` on the tokens the examples use, and on
malformed ones. -/
theorem parseDecimal_known_values :
    parseDecimal "12" = some (F64.ofRatio 12 1)
    ∧ parseDecimal "0.92" = some (F64.ofRatio 92 100)
    ∧ parseDecimal "-5" = some (F64.round true 5 1)
    ∧ parseDecimal "1e2" = some (F64.ofRatio 100 1)
    ∧ parseDecimal "" = none
    ∧ parseDecimal "." = none
    ∧ parseDecimal "1e" = none := by
  refine ⟨?_, ?_, ?_, ?_, ?_, ?_, ?_⟩ <;> decide

/-- A rate reply mentions each member of the expected shape. -/
theorem mentions_known_values :
    expectedMembers.all (fun name => mentions usdBody name) = true
    ∧ mentions "abc" "bc" = true
    ∧ mentions "abc" "cb" = false := by
  refine ⟨?_, ?_, ?_⟩ <;> decide

/-! ## Properties of the rate fetcher and the converter -/

/-- A lookup by first match fails exactly when no pair carries the key. -/
theorem lookup_eq_none_iff_forall {F : Type} (k : String) (kvs : List (String × F)) :
    kvs.lookup k = none ↔ ∀ v, (k, v) ∉ kvs := by
  induction kvs with
  | nil => simp
  | cons p ps ih =>
    obtain ⟨k', v'⟩ := p
    by_cases hk : k = k'
    · subst hk
      simp only [List.lookup, beq_self_eq_true, reduceCtorEq, false_iff, not_forall, not_not]
      exact ⟨v', List.mem_cons_self _ _⟩
    · have hbeq : (k == k') = false := by simpa using hk
      simp [List.lookup, hbeq, ih, hk]

/-- The map index finds nothing exactly when the key is not in the map. -/
theorem mapIndex_eq_none_iff {F : Type} (m : Option (List (String × F))) (k : String) :
    mapIndex m k = none ↔ ¬ isKey m k := by
  cases m with
  | none => simp [mapIndex, isKey]
  | some kvs =>
    simp only [mapIndex, isKey, lookup_eq_none_iff_forall]
    constructor
    · rintro h ⟨kvs', v, hk, hv⟩
      cases hk
      exact h v hv
    · intro h v hv
      exact h ⟨kvs, v, rfl, hv⟩

/-- Every call of `getExchangeRate` performs exactly one GET, to the request URL. -/
theorem getExchangeRate_trace {F L : Type} [Zero F] (env : Env F L) (from_ to_ : String) :
    (getExchangeRate env from_ to_).2 = [.httpGet (requestURL from_)] := by
  unfold getExchangeRate
  dsimp only
  split
  · rfl
  · rfl
  · split
    · rfl
    · split <;> rfl

/-- Every call of `convertCurrency` performs exactly one GET, to the URL built
from the uppercased source code. -/
theorem convertCurrency_trace {F L : Type} [Zero F] [Mul F] (env : Env F L)
    (from_ to_ : String) (amount : F) :
    (convertCurrency env from_ to_ amount).2
      = [.httpGet ("https://v6.exchangerate-api.com/v6/" ++ apiKey ++ "/latest/" ++ ToUpper env from_)] := by
  have h := getExchangeRate_trace env (ToUpper env from_) (ToUpper env to_)
  unfold convertCurrency
  dsimp only
  split <;> simpa only [requestURL] using h

/-- C1.  When the request for `upper(from)` is answered with a body that
decodes to `snapshot`, and `snapshot`'s rate map has rate `r` at `upper(to)`,
then `convertCurrency(from, to, amount)` returns a nil error, that snapshot,
and exactly the product `amount * r` (nothing is rounded), after one GET.  It
holds for every amount, positive or not. -/
theorem convertCurrency_success {F L : Type} [Zero F] [Mul F] (env : Env F L)
    (from_ to_ : String) (amount r : F) (snapshot : ExchangeRateResponse F) (bytes : String)
    (hget : env.httpGet (requestURL (ToUpper env from_)) = .body bytes)
    (hjson : env.unmarshal bytes = .ok snapshot)
    (hrate : mapIndex snapshot.ConversionRates (ToUpper env to_) = some r) :
    convertCurrency env from_ to_ amount
      = ((amount * r, snapshot, none), [.httpGet (requestURL (ToUpper env from_))]) := by
  simp [convertCurrency, getExchangeRate, hget, hjson, hrate]

/-- The scenario of C1 in binary64 arithmetic: rate map `EUR: 0.92`, amount
`100`, from `USD` to `EUR`; the stored result is exactly `92` and `%.2f`
renders it as `92.00`. -/
theorem convertCurrency_success_scenario :
    demoEnv.httpGet (requestURL (ToUpper demoEnv "USD")) = .body usdBody
    ∧ demoEnv.unmarshal usdBody = .ok usdSnapshot
    ∧ mapIndex usdSnapshot.ConversionRates (ToUpper demoEnv "EUR") = some (F64.ofRatio 92 100)
    ∧ convertCurrency demoEnv "USD" "EUR" (F64.ofRatio 100 1)
        = ((F64.ofRatio 92 1, usdSnapshot, none),
           [.httpGet "https://v6.exchangerate-api.com/v6/e6dd2bb259387cc30149060c/latest/USD"])
    ∧ demoEnv.fmt2f (F64.ofRatio 92 1) = "92.00" := by
  have hget : demoEnv.httpGet (requestURL (ToUpper demoEnv "USD")) = .body usdBody := by decide
  have hjson : demoEnv.unmarshal usdBody = .ok usdSnapshot := rfl
  have hrate : mapIndex usdSnapshot.ConversionRates (ToUpper demoEnv "EUR")
      = some (F64.ofRatio 92 100) := by decide
  have hmul : F64.ofRatio 100 1 * F64.ofRatio 92 100 = F64.ofRatio 92 1 := by decide
  have hurl : requestURL (ToUpper demoEnv "USD")
      = "https://v6.exchangerate-api.com/v6/e6dd2bb259387cc30149060c/latest/USD" := by decide
  have h := convertCurrency_success demoEnv "USD" "EUR" (F64.ofRatio 100 1) (F64.ofRatio 92 100)
    usdSnapshot usdBody hget hjson hrate
  rw [hmul, hurl] at h
  exact ⟨hget, hjson, hrate, h, by decide⟩

/-- C2.  Currency codes are case-insensitive in `convertCurrency`: inputs
with the same uppercased codes perform the same single GET, to
`https://v6.exchangerate-api.com/v6/<apiKey>/latest/<upper(from)>`, and
return the same result, snapshot and error. -/
theorem convertCurrency_case_insensitive {F L : Type} [Zero F] [Mul F] (env : Env F L)
    (from1 to1 from2 to2 : String) (amount : F)
    (hfrom : ToUpper env from1 = ToUpper env from2) (hto : ToUpper env to1 = ToUpper env to2) :
    convertCurrency env from1 to1 amount = convertCurrency env from2 to2 amount
    ∧ (convertCurrency env from1 to1 amount).2
        = [.httpGet ("https://v6.exchangerate-api.com/v6/" ++ apiKey ++ "/latest/" ++ ToUpper env from1)]
    ∧ (convertCurrency env from2 to2 amount).2
        = [.httpGet ("https://v6.exchangerate-api.com/v6/" ++ apiKey ++ "/latest/" ++ ToUpper env from1)] := by
  refine ⟨?_, convertCurrency_trace env from1 to1 amount, ?_⟩
  · simp only [convertCurrency, hfrom, hto]
  · rw [hfrom]
    exact convertCurrency_trace env from2 to2 amount

/-- The example of C2: `convert("usd","eur",10)` and `convert("USD","EUR",10)`. -/
theorem convertCurrency_case_insensitive_example :
    ToUpper demoEnv "usd" = ToUpper demoEnv "USD" ∧ ToUpper demoEnv "eur" = ToUpper demoEnv "EUR"
    ∧ convertCurrency demoEnv "usd" "eur" (F64.ofRatio 10 1)
        = convertCurrency demoEnv "USD" "EUR" (F64.ofRatio 10 1)
    ∧ (convertCurrency demoEnv "usd" "eur" (F64.ofRatio 10 1)).2
        = [.httpGet ("https://v6.exchangerate-api.com/v6/" ++ apiKey ++ "/latest/" ++ "USD")] :=
  have h := convertCurrency_case_insensitive demoEnv "usd" "eur" "USD" "EUR" (F64.ofRatio 10 1)
    (by decide) (by decide)
  ⟨by decide, by decide, h.1, h.2.1⟩

/-- C3.  When the request is answered with a body that decodes to
`snapshot` (its rate map may be empty or nil), `convertCurrency` returns the
rate-not-found error exactly when `upper(to)` is not a key of the rate map,
and it returns no other error; in that case the result is `0`, the decoded
snapshot is returned, and the only effect is the GET: the lookup is a plain
map index and nothing panics. -/
theorem convertCurrency_rate_not_found_iff {F L : Type} [Zero F] [Mul F] (env : Env F L)
    (from_ to_ : String) (amount : F) (snapshot : ExchangeRateResponse F) (bytes : String)
    (hget : env.httpGet (requestURL (ToUpper env from_)) = .body bytes)
    (hjson : env.unmarshal bytes = .ok snapshot) :
    ((convertCurrency env from_ to_ amount).1.2.2 = some (.RateNotFoundError (ToUpper env to_))
        ↔ ¬ isKey snapshot.ConversionRates (ToUpper env to_))
    ∧ ((∃ e, (convertCurrency env from_ to_ amount).1.2.2 = some e)
        ↔ ¬ isKey snapshot.ConversionRates (ToUpper env to_))
    ∧ (¬ isKey snapshot.ConversionRates (ToUpper env to_) →
        convertCurrency env from_ to_ amount
          = ((0, snapshot, some (.RateNotFoundError (ToUpper env to_))),
             [.httpGet (requestURL (ToUpper env from_))])) := by
  rw [← mapIndex_eq_none_iff]
  cases hrate : mapIndex snapshot.ConversionRates (ToUpper env to_) with
  | none => simp [convertCurrency, getExchangeRate, hget, hjson, hrate]
  | some r => simp [convertCurrency, getExchangeRate, hget, hjson, hrate]

/-- Two instances of C3: `GBP` is not in the rate map of `usdSnapshot`, and
the empty JSON object decodes to a snapshot whose rate map is nil. -/
theorem convertCurrency_rate_not_found_example :
    demoEnv.httpGet (requestURL (ToUpper demoEnv "usd")) = .body usdBody
    ∧ demoEnv.unmarshal usdBody = .ok usdSnapshot
    ∧ ¬ isKey usdSnapshot.ConversionRates (ToUpper demoEnv "gbp")
    ∧ convertCurrency demoEnv "usd" "gbp" (F64.ofRatio 100 1)
        = ((0, usdSnapshot, some (.RateNotFoundError "GBP")),
           [.httpGet (requestURL (ToUpper demoEnv "usd"))])
    ∧ ¬ isKey (ExchangeRateResponse.zero F64).ConversionRates (ToUpper emptyObjectEnv "eur")
    ∧ convertCurrency emptyObjectEnv "usd" "eur" (F64.ofRatio 100 1)
        = ((0, ExchangeRateResponse.zero F64, some (.RateNotFoundError "EUR")),
           [.httpGet (requestURL (ToUpper emptyObjectEnv "usd"))]) :=
  have hkey : ¬ isKey usdSnapshot.ConversionRates (ToUpper demoEnv "gbp") :=
    (mapIndex_eq_none_iff _ _).1 (by decide)
  have hnil : ¬ isKey (ExchangeRateResponse.zero F64).ConversionRates (ToUpper emptyObjectEnv "eur") :=
    (mapIndex_eq_none_iff _ _).1 (by decide)
  ⟨by decide, rfl, hkey,
   (convertCurrency_rate_not_found_iff demoEnv "usd" "gbp" (F64.ofRatio 100 1) usdSnapshot usdBody
      (by decide) rfl).2.2 hkey,
   hnil,
   (convertCurrency_rate_not_found_iff emptyObjectEnv "usd" "eur" (F64.ofRatio 100 1)
      (ExchangeRateResponse.zero F64) "\x7b\x7d" rfl rfl).2.2 hnil⟩

/-- The function `printError` makes no request. -/
theorem countGets_printError (lang message : String) : countGets (printError lang message) = 0 := by
  unfold printError
  split_ifs <;> rfl

/-- The function `printResult` makes no request. -/
theorem countGets_printResult {F L : Type} (env : Env F L) (lang : String)
    (response : ExchangeRateResponse F) (amount : F) (from_ to_ : String) (result : F) :
    countGets (printResult env lang response amount from_ to_ result) = 0 := by
  unfold printResult
  split
  · rfl
  · dsimp only
    split_ifs <;> rfl

/-- Requests of a concatenated trace add up. -/
theorem countGets_append (a b : List Event) : countGets (a ++ b) = countGets a + countGets b := by
  simp [countGets]

/-- C4.  Flag mode.  If `from` is empty, or `to` is empty, or `amount <= 0`,
the command prints one line, the invalid-input message behind the error
label of the language, and nothing else: no request is made and no result
is printed.  Otherwise it calls `convertCurrency(from, to, amount)` once:
the run is the single GET of that call followed by the output for its
result. -/
theorem cliRun_validation {F L : Type} [Zero F] [Mul F] [LE F] [∀ a b : F, Decidable (a ≤ b)]
    (env : Env F L) (lang from_ to_ : String) (amount : F) :
    ((from_ = "" ∨ to_ = "" ∨ amount ≤ 0) →
        cliRun env lang from_ to_ amount
          = [.stdout ((if lang = "uz" then "Xato:" else if lang = "ru" then "Ошибка:" else "Error:")
              ++ " " ++ invalidInputMessage ++ "\n")]
        ∧ countGets (cliRun env lang from_ to_ amount) = 0)
    ∧ (¬ (from_ = "" ∨ to_ = "" ∨ amount ≤ 0) →
        cliRun env lang from_ to_ amount
          = [.httpGet (requestURL (ToUpper env from_))]
              ++ cliOutput env lang from_ to_ amount (convertCurrency env from_ to_ amount).1
        ∧ (convertCurrency env from_ to_ amount).2 = [.httpGet (requestURL (ToUpper env from_))]
        ∧ countGets (cliRun env lang from_ to_ amount) = 1) := by
  constructor
  · intro h
    have hrun : cliRun env lang from_ to_ amount = printError lang invalidInputMessage := by
      unfold cliRun
      rw [if_pos h]
    rw [hrun]
    refine ⟨?_, countGets_printError _ _⟩
    unfold printError
    split_ifs <;> rfl
  · intro h
    have htrace := convertCurrency_trace env from_ to_ amount
    have hrun : cliRun env lang from_ to_ amount
        = (convertCurrency env from_ to_ amount).2
            ++ cliOutput env lang from_ to_ amount (convertCurrency env from_ to_ amount).1 := by
      unfold cliRun cliOutput
      rw [if_neg h]
      rcases hc : convertCurrency env from_ to_ amount with ⟨⟨result, response, err⟩, trace⟩
      cases err <;> rfl
    have hout : countGets (cliOutput env lang from_ to_ amount (convertCurrency env from_ to_ amount).1)
        = 0 := by
      unfold cliOutput
      split
      · exact countGets_printError _ _
      · exact countGets_printResult _ _ _ _ _ _ _
    refine ⟨?_, htrace, ?_⟩
    · rw [hrun, htrace]
      rfl
    · rw [hrun, countGets_append, hout, htrace]
      rfl

/-- The scenario of C4, `amount = -5`, in Russian, and an accepted request. -/
theorem cliRun_validation_examples :
    ("USD" = "" ∨ "EUR" = "" ∨ F64.round true 5 1 ≤ 0)
    ∧ cliRun demoEnv "ru" "USD" "EUR" (F64.round true 5 1)
        = [.stdout ("Ошибка: Invalid input. Ensure 'from', 'to' currencies and a positive 'amount' "
            ++ "are provided.\n")]
    ∧ countGets (cliRun demoEnv "ru" "USD" "EUR" (F64.round true 5 1)) = 0
    ∧ ¬ ("usd" = "" ∨ "gbp" = "" ∨ F64.ofRatio 100 1 ≤ 0)
    ∧ cliRun demoEnv "uz" "usd" "gbp" (F64.ofRatio 100 1)
        = [.httpGet "https://v6.exchangerate-api.com/v6/e6dd2bb259387cc30149060c/latest/USD",
           .stdout "Xato: Error: rate not found for GBP\n"]
    ∧ countGets (cliRun demoEnv "uz" "usd" "gbp" (F64.ofRatio 100 1)) = 1 :=
  have hbad : ("USD" = "" ∨ "EUR" = "" ∨ F64.round true 5 1 ≤ 0) := by decide
  have hgood : ¬ ("usd" = "" ∨ "gbp" = "" ∨ F64.ofRatio 100 1 ≤ 0) := by decide
  have h1 := (cliRun_validation demoEnv "ru" "USD" "EUR" (F64.round true 5 1)).1 hbad
  have h2 := (cliRun_validation demoEnv "uz" "usd" "gbp" (F64.ofRatio 100 1)).2 hgood
  ⟨hbad, h1.1.trans (by decide), h1.2, hgood, h2.1.trans (by decide), h2.2.2⟩

/-! ## Language fallback -/

/-- Reading the currency codes never assigns the package variable `lang`. -/
theorem askCurrencies_lang {F L : Type} [Zero F] [Mul F] (env : Env F L) (st : State) (amount : F) :
    (askCurrencies env st amount).1.lang = st.lang := by
  unfold askCurrencies
  dsimp only
  split_ifs
  · rfl
  · split <;> rfl

/-- The loop body never assigns the package variable `lang`. -/
theorem iteration_lang {F L : Type} [Zero F] [Mul F] [LE F] [∀ a b : F, Decidable (a ≤ b)]
    (env : Env F L) (st : State) : (iteration env st).1.lang = st.lang := by
  unfold iteration
  dsimp only
  split_ifs
  · rfl
  · split
    · rfl
    · split_ifs
      · rfl
      · exact askCurrencies_lang env _ _

/-- C6.  A language outside `en`, `ru`, `uz` falls back to English.  In flag
mode `printResult` and `printError` (hence the whole run) print what they
print for `en`.  In the interactive program, when the language read is such
a value, `lang` is `en` from then on (the loop body never changes it), and
for each key the program uses `translations[lang][key]` is the English text,
which is not empty. -/
theorem unknown_language_falls_back (lang : String)
    (h : lang ≠ "en" ∧ lang ≠ "ru" ∧ lang ≠ "uz") :
    (∀ (F L : Type) (env : Env F L) (response : ExchangeRateResponse F) (amount : F)
        (from_ to_ : String) (result : F),
        printResult env lang response amount from_ to_ result
          = printResult env "en" response amount from_ to_ result)
    ∧ (∀ message, printError lang message = printError "en" message
        ∧ printError lang message = [.stdout ("Error: " ++ message ++ "\n")])
    ∧ (∀ (F L : Type) [Zero F] [Mul F] [LE F] [∀ a b : F, Decidable (a ≤ b)] (env : Env F L)
        (from_ to_ : String) (amount : F),
        cliRun env lang from_ to_ amount = cliRun env "en" from_ to_ amount)
    ∧ (∀ st : State, (Scanln st.stdin).1.getD st.lang = lang →
        (chooseLanguage st).1.lang = "en"
        ∧ ∀ key ∈ usedKeys, tr (chooseLanguage st).1.lang key = tr "en" key
            ∧ tr (chooseLanguage st).1.lang key ≠ "")
    ∧ (∀ (F L : Type) [Zero F] [Mul F] [LE F] [∀ a b : F, Decidable (a ≤ b)] (env : Env F L)
        (st : State), (iteration env st).1.lang = st.lang) := by
  obtain ⟨hen, hru, huz⟩ := h
  have hres : ∀ (F L : Type) (env : Env F L) (response : ExchangeRateResponse F) (amount : F)
      (from_ to_ : String) (result : F),
      printResult env lang response amount from_ to_ result
        = printResult env "en" response amount from_ to_ result := by
    intro F L env response amount from_ to_ result
    unfold printResult
    split
    · rfl
    · dsimp only
      rw [if_neg huz, if_neg hru, if_neg (by decide), if_neg (by decide)]
  have herr : ∀ message, printError lang message = printError "en" message
      ∧ printError lang message = [.stdout ("Error: " ++ message ++ "\n")] := by
    intro message
    unfold printError
    rw [if_neg huz, if_neg hru, if_neg (by decide), if_neg (by decide)]
    exact ⟨rfl, by simp [String.append_assoc]⟩
  refine ⟨hres, herr, ?_, ?_, ?_⟩
  · intro F L _ _ _ _ env from_ to_ amount
    unfold cliRun
    simp only [hres, (herr _).1]
  · intro st hst
    have hlang : (chooseLanguage st).1.lang = "en" := by
      unfold chooseLanguage
      dsimp only
      rw [hst, if_pos ⟨hen, hru, huz⟩]
    rw [hlang]
    refine ⟨rfl, ?_⟩
    decide
  · intro F L _ _ _ _ env st
    exact iteration_lang env st

/-- An instance of C6: the language `de`. -/
theorem unknown_language_falls_back_example :
    ("de" ≠ "en" ∧ "de" ≠ "ru" ∧ "de" ≠ "uz")
    ∧ printError "de" "boom" = [.stdout "Error: boom\n"]
    ∧ (chooseLanguage (State.init "de\n")).1.lang = "en"
    ∧ tr (chooseLanguage (State.init "de\n")).1.lang "invalid_amount"
        = "Invalid amount. Please enter a positive number." :=
  have h := unknown_language_falls_back "de" (by decide)
  have hst := h.2.2.2.1 (State.init "de\n") (by decide)
  ⟨by decide, (h.2.1 "boom").2.trans (by decide), hst.1,
   (hst.2 "invalid_amount" (by decide)).1.trans (by decide)⟩

/-! ## The result block -/

/-- C8, as amended.  Whenever the `Asia/Tashkent` location loads, the
presenter prints exactly five pieces of output, in this order: the separator
line; the conversion line, numbers with `%.2f` between green codes and
currency codes between yellow codes, joined by ` -> ` in flag mode and by
` is ` in the interactive program; the base-currency line; the last-update
line; the separator line again.  A successful conversion prints that block
right after its GET, in both programs. -/
theorem result_block_five_lines {F L : Type} [Zero F] [Mul F] [LE F] [∀ a b : F, Decidable (a ≤ b)]
    (env : Env F L) (lang : String) (response : ExchangeRateResponse F) (amount result : F)
    (from_ to_ : String) (loc : L) (hloc : env.loadLocation "Asia/Tashkent" = some loc) :
    (∃ baseLabel updateLabel : String,
        printResult env lang response amount from_ to_ result
          = [.stdout "---------------------------------------------------------\n",
             .stdout (ColorGreen ++ env.fmt2f amount ++ ColorReset ++ " " ++ ColorYellow ++ from_
               ++ ColorReset ++ " -> " ++ ColorGreen ++ env.fmt2f result ++ ColorReset ++ " "
               ++ ColorYellow ++ to_ ++ ColorReset ++ "\n"),
             .stdout (baseLabel ++ ColorYellow ++ response.BaseCode ++ ColorReset ++ "\n"),
             .stdout (updateLabel ++ env.formatTime loc response.TimeLastUpdateUnix ++ "\n"),
             .stdout "---------------------------------------------------------\n"])
    ∧ interactivePrint env lang response amount from_ to_ result
        = ([.stdout "---------------------------------------------------------\n",
            .stdout (ColorGreen ++ env.fmt2f amount ++ ColorReset ++ " " ++ ColorYellow ++ from_
              ++ ColorReset ++ " is " ++ ColorGreen ++ env.fmt2f result ++ ColorReset ++ " "
              ++ ColorYellow ++ to_ ++ ColorReset ++ "\n"),
            .stdout (tr lang "base_currency" ++ ColorYellow ++ response.BaseCode ++ ColorReset ++ "\n"),
            .stdout (tr lang "last_update" ++ env.formatTime loc response.TimeLastUpdateUnix ++ "\n"),
            .stdout "---------------------------------------------------------\n"], .next)
    ∧ (∀ trace, ¬ (from_ = "" ∨ to_ = "" ∨ amount ≤ 0) →
        convertCurrency env from_ to_ amount = ((result, response, none), trace) →
        cliRun env lang from_ to_ amount
          = trace ++ printResult env lang response amount from_ to_ result)
    ∧ (∀ (st : State) trace,
        ToUpper env ((Scanln st.stdin).1.getD st.from_) = from_ →
        ToUpper env ((Scanln (Scanln st.stdin).2).1.getD st.to_) = to_ →
        ¬ (from_ = "" ∨ to_ = "") →
        convertCurrency env from_ to_ amount = ((result, response, none), trace) →
        (askCurrencies env st amount).2
          = ([.stdout (tr st.lang "enter_from"), .stdout (tr st.lang "enter_to")] ++ trace
              ++ (interactivePrint env st.lang response amount from_ to_ result).1, .next)) := by
  have hint : ∀ lg : String, interactivePrint env lg response amount from_ to_ result
      = ([.stdout "---------------------------------------------------------\n",
          .stdout (ColorGreen ++ env.fmt2f amount ++ ColorReset ++ " " ++ ColorYellow ++ from_
            ++ ColorReset ++ " is " ++ ColorGreen ++ env.fmt2f result ++ ColorReset ++ " "
            ++ ColorYellow ++ to_ ++ ColorReset ++ "\n"),
          .stdout (tr lg "base_currency" ++ ColorYellow ++ response.BaseCode ++ ColorReset ++ "\n"),
          .stdout (tr lg "last_update" ++ env.formatTime loc response.TimeLastUpdateUnix ++ "\n"),
          .stdout "---------------------------------------------------------\n"], .next) := by
    intro lg
    unfold interactivePrint
    rw [hloc]
    rfl
  refine ⟨?_, hint lang, ?_, ?_⟩
  · unfold printResult
    rw [hloc]
    dsimp only
    split_ifs
    · exact ⟨"Asosiy valyuta: ", "So'nggi yangilanish (Toshkent vaqti): ", rfl⟩
    · exact ⟨"Основная валюта: ", "Последнее обновление (Ташкентское время): ", rfl⟩
    · exact ⟨"Base Currency: ", "Last Update (Tashkent Time): ", rfl⟩
  · intro trace hvalid hconv
    unfold cliRun
    rw [if_neg hvalid, hconv]
  · intro st trace hfrom hto hvalid hconv
    unfold askCurrencies
    dsimp only
    rw [hfrom, hto, if_neg hvalid, hconv]
    dsimp only
    rw [hint st.lang]

/-- An instance of C8 as amended: the flag-mode block for `100 usd -> eur`. -/
theorem result_block_five_lines_example :
    demoEnv.loadLocation "Asia/Tashkent" = some "Asia/Tashkent"
    ∧ ¬ ("usd" = "" ∨ "eur" = "" ∨ F64.ofRatio 100 1 ≤ 0)
    ∧ convertCurrency demoEnv "usd" "eur" (F64.ofRatio 100 1)
        = ((F64.ofRatio 92 1, usdSnapshot, none), [.httpGet (requestURL "USD")])
    ∧ cliRun demoEnv "en" "usd" "eur" (F64.ofRatio 100 1)
        = [.httpGet "https://v6.exchangerate-api.com/v6/e6dd2bb259387cc30149060c/latest/USD",
           .stdout "---------------------------------------------------------\n",
           .stdout "\x1b[32m100.00\x1b[0m \x1b[33musd\x1b[0m -> \x1b[32m92.00\x1b[0m \x1b[33meur\x1b[0m\n",
           .stdout "Base Currency: \x1b[33mUSD\x1b[0m\n",
           .stdout "Last Update (Tashkent Time): Mon, 01 Jan 2024 05:00:01\n",
           .stdout "---------------------------------------------------------\n"] :=
  have hloc : demoEnv.loadLocation "Asia/Tashkent" = some "Asia/Tashkent" := by decide
  have hvalid : ¬ ("usd" = "" ∨ "eur" = "" ∨ F64.ofRatio 100 1 ≤ 0) := by decide
  have hconv : convertCurrency demoEnv "usd" "eur" (F64.ofRatio 100 1)
      = ((F64.ofRatio 92 1, usdSnapshot, none), [.httpGet (requestURL "USD")]) := by decide
  ⟨hloc, hvalid, hconv,
   ((result_block_five_lines demoEnv "en" usdSnapshot (F64.ofRatio 100 1) (F64.ofRatio 92 1)
      "usd" "eur" "Asia/Tashkent" hloc).2.2.1 _ hvalid hconv).trans (by decide)⟩

/-- C8 as stated fails in the interactive program: a successful conversion of
`100` from `usd` to `eur` prints the conversion line with ` is `, and no line
of the form `amount from -> result to` is printed. -/
theorem interactive_conversion_line_is_not_arrow :
    iteration demoEnv { stdin := "100\nusd\neur\n".data, from_ := "", to_ := "", lang := "en" }
      = ({ stdin := [], from_ := "USD", to_ := "EUR", lang := "en" },
         [.stdout "Enter amount (or 'exit' to quit): ",
          .stdout "Enter currency to convert from (e.g., USD): ",
          .stdout "Enter currency to convert to (e.g., EUR): ",
          .httpGet "https://v6.exchangerate-api.com/v6/e6dd2bb259387cc30149060c/latest/USD",
          .stdout "---------------------------------------------------------\n",
          .stdout "\x1b[32m100.00\x1b[0m \x1b[33mUSD\x1b[0m is \x1b[32m92.00\x1b[0m \x1b[33mEUR\x1b[0m\n",
          .stdout "Base Currency: \x1b[33mUSD\x1b[0m\n",
          .stdout "Last Update (Tashkent Time): Mon, 01 Jan 2024 05:00:01\n",
          .stdout "---------------------------------------------------------\n"],
         .next)
    ∧ Event.stdout "\x1b[32m100.00\x1b[0m \x1b[33mUSD\x1b[0m -> \x1b[32m92.00\x1b[0m \x1b[33mEUR\x1b[0m\n"
        ∉ (iteration demoEnv
            { stdin := "100\nusd\neur\n".data, from_ := "", to_ := "", lang := "en" }).2.1 := by
  constructor <;> decide

/-! ## The interactive loop: amount validation -/

/-- The part of C5 the code does implement: when `Sscanf` fails on the
amount word, or the scanned number is `<= 0`, and the word is not the exit
keyword, the pass prints the amount prompt and the invalid-amount message,
reads nothing more, makes no request, and the loop continues. -/
theorem iteration_rejects_invalid_amount {F L : Type} [Zero F] [Mul F] [LE F]
    [∀ a b : F, Decidable (a ≤ b)] (env : Env F L) (st : State)
    (hexit : ToLower env ((Scanln st.stdin).1.getD "") ≠ "exit")
    (hbad : Sscanf env ((Scanln st.stdin).1.getD "") = none
      ∨ ∃ amount, Sscanf env ((Scanln st.stdin).1.getD "") = some amount ∧ amount ≤ 0) :
    iteration env st
      = ({ st with stdin := (Scanln st.stdin).2 },
         [.stdout (tr st.lang "enter_amount"), .stdout (tr st.lang "invalid_amount" ++ "\n")],
         .next) := by
  unfold iteration
  dsimp only
  rw [if_neg hexit]
  rcases hbad with h | ⟨amount, h, hle⟩
  · rw [h]
  · rw [h]
    dsimp only
    rw [if_pos hle]

/-- Instances of `iteration_rejects_invalid_amount`: the amount lines `abc` and `-3`. -/
theorem iteration_rejects_invalid_amount_examples :
    iteration demoEnv { stdin := "abc\nusd\n".data, from_ := "", to_ := "", lang := "en" }
      = ({ stdin := "usd\n".data, from_ := "", to_ := "", lang := "en" },
         [.stdout "Enter amount (or 'exit' to quit): ",
          .stdout "Invalid amount. Please enter a positive number.\n"], .next)
    ∧ iteration demoEnv { stdin := "-3\nusd\n".data, from_ := "", to_ := "", lang := "uz" }
      = ({ stdin := "usd\n".data, from_ := "", to_ := "", lang := "uz" },
         [.stdout "Summani kiriting (yoki chiqish uchun 'exit' kiriting): ",
          .stdout "Noto'g'ri summa. Iltimos, musbat son kiriting.\n"], .next) :=
  ⟨(iteration_rejects_invalid_amount demoEnv
      { stdin := "abc\nusd\n".data, from_ := "", to_ := "", lang := "en" }
      (by decide) (Or.inl (by decide))).trans (by decide),
   (iteration_rejects_invalid_amount demoEnv
      { stdin := "-3\nusd\n".data, from_ := "", to_ := "", lang := "uz" }
      (by decide) (Or.inr ⟨F64.round true 3 1, by decide, by decide⟩)).trans (by decide)⟩

/-- C5 fails at the amount line `12abc`.  `floatToken` stops at `a` and
returns `12`; `Sscanf` reports no error for the unread `abc`; `12 > 0`; so
the pass goes on to ask for both currency codes and performs the GET, and the
invalid-amount message is not printed. -/
theorem iteration_accepts_amount_with_trailing_text :
    floatToken "12abc".data = "12".data
    ∧ Sscanf demoEnv "12abc" = some (F64.ofRatio 12 1)
    ∧ ¬ (F64.ofRatio 12 1 ≤ 0)
    ∧ iteration demoEnv { stdin := "12abc\nusd\neur\n".data, from_ := "", to_ := "", lang := "en" }
      = ({ stdin := [], from_ := "USD", to_ := "EUR", lang := "en" },
         [.stdout "Enter amount (or 'exit' to quit): ",
          .stdout "Enter currency to convert from (e.g., USD): ",
          .stdout "Enter currency to convert to (e.g., EUR): ",
          .httpGet "https://v6.exchangerate-api.com/v6/e6dd2bb259387cc30149060c/latest/USD",
          .stdout "---------------------------------------------------------\n",
          .stdout "\x1b[32m12.00\x1b[0m \x1b[33mUSD\x1b[0m is \x1b[32m11.04\x1b[0m \x1b[33mEUR\x1b[0m\n",
          .stdout "Base Currency: \x1b[33mUSD\x1b[0m\n",
          .stdout "Last Update (Tashkent Time): Mon, 01 Jan 2024 05:00:01\n",
          .stdout "---------------------------------------------------------\n"],
         .next) := by
  refine ⟨?_, ?_, ?_, ?_⟩ <;> decide

/-! ## The interactive loop: state carried between passes -/

/-- C9 fails.  `from` and `to` are package variables and `fmt.Scanln` leaves
its argument untouched on a blank line.  After a pass that read `usd` and
`eur`, a pass that reads the amount `10` and two blank lines converts
`USD` to `EUR` again (it performs the GET); the same three lines in a fresh
process give the missing-currencies message and no request. -/
theorem blank_currency_lines_reuse_previous_codes :
    Scanln "\n\n".data = (none, "\n".data)
    ∧ iteration demoEnv { stdin := "10\n\n\n".data, from_ := "USD", to_ := "EUR", lang := "en" }
      = ({ stdin := [], from_ := "USD", to_ := "EUR", lang := "en" },
         [.stdout "Enter amount (or 'exit' to quit): ",
          .stdout "Enter currency to convert from (e.g., USD): ",
          .stdout "Enter currency to convert to (e.g., EUR): ",
          .httpGet "https://v6.exchangerate-api.com/v6/e6dd2bb259387cc30149060c/latest/USD",
          .stdout "---------------------------------------------------------\n",
          .stdout "\x1b[32m10.00\x1b[0m \x1b[33mUSD\x1b[0m is \x1b[32m9.20\x1b[0m \x1b[33mEUR\x1b[0m\n",
          .stdout "Base Currency: \x1b[33mUSD\x1b[0m\n",
          .stdout "Last Update (Tashkent Time): Mon, 01 Jan 2024 05:00:01\n",
          .stdout "---------------------------------------------------------\n"],
         .next)
    ∧ iteration demoEnv { stdin := "10\n\n\n".data, from_ := "", to_ := "", lang := "en" }
      = ({ stdin := [], from_ := "", to_ := "", lang := "en" },
         [.stdout "Enter amount (or 'exit' to quit): ",
          .stdout "Enter currency to convert from (e.g., USD): ",
          .stdout "Enter currency to convert to (e.g., EUR): ",
          .stdout "Both 'from' and 'to' currencies must be specified.\n"],
         .next)
    ∧ (interactiveMain demoEnv 3 "en\n10\nusd\neur\n10\n\n\nexit\n").map countGets = some 2
    ∧ (interactiveMain demoEnv 2 "en\n10\n\n\nexit\n").map countGets = some 0 := by
  refine ⟨?_, ?_, ?_, ?_, ?_⟩ <;> decide

/-! ## The discarded error of `time.LoadLocation` -/

/-- When `time.LoadLocation` fails, both presenters panic in `Time.In` before
printing anything. -/
theorem presenters_panic_without_location {F L : Type} (env : Env F L) (lang : String)
    (response : ExchangeRateResponse F) (amount result : F) (from_ to_ : String)
    (hloc : env.loadLocation "Asia/Tashkent" = none) :
    printResult env lang response amount from_ to_ result
      = [.panic "time: missing Location in call to Time.In"]
    ∧ interactivePrint env lang response amount from_ to_ result
      = ([.panic "time: missing Location in call to Time.In"], .crashed) := by
  unfold printResult interactivePrint
  rw [hloc]
  exact ⟨rfl, rfl⟩

/-- C10 fails on a host without a time-zone database: the successful
conversion of `100` from `usd` to `eur` ends in a panic instead of a result
block, in flag mode and in the interactive program. -/
theorem conversion_panics_without_zoneinfo :
    noZoneinfoEnv.loadLocation "Asia/Tashkent" = none
    ∧ cliRun noZoneinfoEnv "en" "usd" "eur" (F64.ofRatio 100 1)
      = [.httpGet "https://v6.exchangerate-api.com/v6/e6dd2bb259387cc30149060c/latest/USD",
         .panic "time: missing Location in call to Time.In"]
    ∧ iteration noZoneinfoEnv { stdin := "100\nusd\neur\n".data, from_ := "", to_ := "", lang := "en" }
      = ({ stdin := [], from_ := "USD", to_ := "EUR", lang := "en" },
         [.stdout "Enter amount (or 'exit' to quit): ",
          .stdout "Enter currency to convert from (e.g., USD): ",
          .stdout "Enter currency to convert to (e.g., EUR): ",
          .httpGet "https://v6.exchangerate-api.com/v6/e6dd2bb259387cc30149060c/latest/USD",
          .panic "time: missing Location in call to Time.In"],
         .crashed) := by
  refine ⟨?_, ?_, ?_⟩ <;> decide

end CurrencyConverter
